import Mathlib

/-!
# DNSPod reconciler (`dns/dnspod.go`)

A shallow embedding of the DNSPod provider of ddns-go: the request builders,
the create and update paths, the per-address-family loop and `Init`.

The network is an explicit parameter: a `Provider` answers a request given the
requests sent before it, and every function threads the log of requests sent
so far.  Domains are mutated in place in the source through distinct pointers;
here each function returns the new value of the domain(s) it may write to.
-/

set_option autoImplicit false

namespace dns

/-! ## Types of the `config` and `util` packages used by the source -/

/-- Modelled from the spec: the `UpdateStatus` enumeration of package `config`
(not part of the source at hand) has the values Unset, Success and Failed; the
source names the last two `config.UpdatedSuccess` and `config.UpdatedFailed`. -/
inductive updateStatusType where
  | Unset
  | UpdatedSuccess
  | UpdatedFailed
  deriving DecidableEq, Repr

/-- Modelled from the spec: `config.Domain` is a root domain string, a
subdomain string and an `UpdateStatus`. -/
structure Domain where
  DomainName : String
  SubDomain : String
  UpdateStatus : updateStatusType
  deriving DecidableEq, Repr

/-- Modelled from the spec: `config.Domains` is the IP resolver's result,
`getCurrentIP(addressFamily) -> (ip, domains)`: for a record type the desired
IP and the domains that receive it.  The lists of different record types are
distinct objects. -/
structure Domains where
  GetNewIpResult : String → String × List Domain

/-- In-place mutation of the domains of one record type, seen from the
`Domains` value that holds them. -/
def Domains.assign (ds : Domains) (recordType : String) (domains : List Domain) : Domains :=
  ⟨fun t => if t = recordType then ((ds.GetNewIpResult t).1, domains) else ds.GetNewIpResult t⟩

/-- The two fields of `config.DNSConfig` the source reads. -/
structure DNSConfig where
  ID : String
  Secret : String
  deriving DecidableEq, Repr

/-- The two fields of `config.Config` the source reads. -/
structure Config where
  DNS : DNSConfig
  TTL : String
  deriving DecidableEq, Repr

/-! ## Types of `dnspod.go` -/

def recordListAPI : String := "https://dnsapi.cn/Record.List"
def recordModifyURL : String := "https://dnsapi.cn/Record.Modify"
def recordCreateAPI : String := "https://dnsapi.cn/Record.Create"

structure Dnspod where
  DNSConfig : DNSConfig
  Domains : Domains
  TTL : String

structure DnspodStatus where
  Code : String
  Message : String
  deriving DecidableEq, Repr

/-- One element of `DnspodRecordListResp.Records`. -/
structure Record where
  ID : String
  Name : String
  Type_ : String
  Value : String
  Enabled : String
  deriving DecidableEq, Repr

structure DnspodRecordListResp where
  Status : DnspodStatus
  Records : List Record
  deriving DecidableEq, Repr

/-- The form values of a request (`url.Values`), as key/value-list pairs. -/
abbrev Values := List (String × List String)

/-- A form-encoded POST: the endpoint and the form values. -/
structure Request where
  apiAddr : String
  values : Values
  deriving DecidableEq, Repr

/-- What `util.GetHTTPResponse` hands back for one POST: the error (`none` is
Go's `nil`) and the decoded envelope. -/
structure Response where
  err : Option String
  Status : DnspodStatus
  Records : List Record
  deriving DecidableEq, Repr

/-- The remote provider and transport: the answer to a request, given the
requests sent before it. -/
abbrev Provider := List Request → Request → Response

/-- Result of the loop over the domains: the domains after the loop, the log
of requests, and whether the loop was left by the `return` in its body. -/
structure LoopResult where
  domains : List Domain
  log : List Request
  returned : Bool
  deriving DecidableEq, Repr

/-! ## Functions of `dnspod.go`

`GetSubDomain` is the method of `config.Domain` that fills the sub_domain
field; its body is outside the source at hand, so every function takes it as a
parameter, as it takes the provider `p`. -/

section
variable (GetSubDomain : Domain → String) (p : Provider)

/-- The method `Init`; `GetNewIp` is the method of `config.Domains` that the
source calls, taken as a parameter. -/
def Init (GetNewIp : Config → Domains → Domains) (dnspod : Dnspod) (conf : Config) : Dnspod :=
  let dnspod1 := { dnspod with DNSConfig := conf.DNS }
  let dnspod2 := { dnspod1 with Domains := GetNewIp conf dnspod1.Domains }
  if conf.TTL = "" then
    { dnspod2 with TTL := "600" }
  else
    { dnspod2 with TTL := conf.TTL }

/-- The method `commonRequest`: one POST of `values` to `apiAddr`. -/
def commonRequest (apiAddr : String) (values : Values) (_domain : Domain)
    (log : List Request) : DnspodStatus × Option String × List Request :=
  let resp := p log ⟨apiAddr, values⟩
  (resp.Status, resp.err, log ++ [⟨apiAddr, values⟩])

/-- The `url.Values` literal of `getRecordList`. -/
def listValues (dnspod : Dnspod) (domain : Domain) (typ : String) : Values :=
  [ ("login_token", [dnspod.DNSConfig.ID ++ "," ++ dnspod.DNSConfig.Secret]),
    ("domain", [domain.DomainName]),
    ("record_type", [typ]),
    ("sub_domain", [GetSubDomain domain]),
    ("format", ["json"]) ]

/-- The method `getRecordList`: one POST to `recordListAPI`. -/
def getRecordList (dnspod : Dnspod) (domain : Domain) (typ : String)
    (log : List Request) : DnspodRecordListResp × Option String × List Request :=
  let values := listValues GetSubDomain dnspod domain typ
  let resp := p log ⟨recordListAPI, values⟩
  (⟨resp.Status, resp.Records⟩, resp.err, log ++ [⟨recordListAPI, values⟩])

/-- The `url.Values` literal of `create`. -/
def createValues (dnspod : Dnspod) (domain : Domain) (recordType ipAddr : String) : Values :=
  [ ("login_token", [dnspod.DNSConfig.ID ++ "," ++ dnspod.DNSConfig.Secret]),
    ("domain", [domain.DomainName]),
    ("sub_domain", [GetSubDomain domain]),
    ("record_type", [recordType]),
    ("record_line", ["默认"]),
    ("value", [ipAddr]),
    ("ttl", [dnspod.TTL]),
    ("format", ["json"]) ]

/-- The method `create`: one POST to `recordCreateAPI`, then the status of the
domain. -/
def create (dnspod : Dnspod) (_result : DnspodRecordListResp) (domain : Domain)
    (recordType ipAddr : String) (log : List Request) : Domain × List Request :=
  let r := commonRequest p recordCreateAPI
    (createValues GetSubDomain dnspod domain recordType ipAddr) domain log
  if r.2.1 = none ∧ r.1.Code = "1" then
    ({ domain with UpdateStatus := updateStatusType.UpdatedSuccess }, r.2.2)
  else
    ({ domain with UpdateStatus := updateStatusType.UpdatedFailed }, r.2.2)

/-- The `url.Values` literal of `modify`. -/
def modifyValues (dnspod : Dnspod) (domain : Domain) (recordType ipAddr : String)
    (record : Record) : Values :=
  [ ("login_token", [dnspod.DNSConfig.ID ++ "," ++ dnspod.DNSConfig.Secret]),
    ("domain", [domain.DomainName]),
    ("sub_domain", [GetSubDomain domain]),
    ("record_type", [recordType]),
    ("record_line", ["默认"]),
    ("record_id", [record.ID]),
    ("value", [ipAddr]),
    ("ttl", [dnspod.TTL]),
    ("format", ["json"]) ]

/-- The `for _, record := range result.Records` loop of `modify`. -/
def modifyRecords (dnspod : Dnspod) (recordType ipAddr : String) :
    List Record → Domain → List Request → Domain × List Request
  | [], domain, log => (domain, log)
  | record :: rest, domain, log =>
    if record.Value = ipAddr then
      modifyRecords dnspod recordType ipAddr rest domain log
    else
      let r := commonRequest p recordModifyURL
        (modifyValues GetSubDomain dnspod domain recordType ipAddr record) domain log
      if r.2.1 = none ∧ r.1.Code = "1" then
        modifyRecords dnspod recordType ipAddr rest
          { domain with UpdateStatus := updateStatusType.UpdatedSuccess } r.2.2
      else
        modifyRecords dnspod recordType ipAddr rest
          { domain with UpdateStatus := updateStatusType.UpdatedFailed } r.2.2

/-- The method `modify`: the loop over the records of the list result. -/
def modify (dnspod : Dnspod) (result : DnspodRecordListResp) (domain : Domain)
    (recordType ipAddr : String) (log : List Request) : Domain × List Request :=
  modifyRecords GetSubDomain p dnspod recordType ipAddr result.Records domain log

/-- The `for _, domain := range domains` loop of `addUpdateDomainRecords`. -/
def rangeDomains (dnspod : Dnspod) (recordType ipAddr : String) :
    List Domain → List Request → LoopResult
  | [], log => ⟨[], log, false⟩
  | domain :: rest, log =>
    let q := getRecordList GetSubDomain p dnspod domain recordType log
    if q.2.1 ≠ none then
      ⟨domain :: rest, q.2.2, true⟩
    else
      let w :=
        if q.1.Records.length > 0 then
          modify GetSubDomain p dnspod q.1 domain recordType ipAddr q.2.2
        else
          create GetSubDomain p dnspod q.1 domain recordType ipAddr q.2.2
      let r := rangeDomains dnspod recordType ipAddr rest w.2
      ⟨w.1 :: r.domains, r.log, r.returned⟩

/-- The method `addUpdateDomainRecords`: the pass for one record type; the
result is the domains of that record type after the pass and the log of
requests. -/
def addUpdateDomainRecords (dnspod : Dnspod) (recordType : String)
    (log : List Request) : List Domain × List Request :=
  let ipAddr := (dnspod.Domains.GetNewIpResult recordType).1
  let domains := (dnspod.Domains.GetNewIpResult recordType).2
  if ipAddr = "" then
    (domains, log)
  else
    let r := rangeDomains GetSubDomain p dnspod recordType ipAddr domains log
    (r.domains, r.log)

/-- The method `AddUpdateDomainRecords`: the pass for "A", then the pass for
"AAAA". -/
def AddUpdateDomainRecords (dnspod : Dnspod) (log : List Request) : Domains × List Request :=
  let a := addUpdateDomainRecords GetSubDomain p dnspod "A" log
  let dnspod1 := { dnspod with Domains := dnspod.Domains.assign "A" a.1 }
  let b := addUpdateDomainRecords GetSubDomain p dnspod1 "AAAA" a.2
  (dnspod1.Domains.assign "AAAA" b.1, b.2)

/-! ## Vocabulary of the statements -/

/-- The request `getRecordList` sends for a domain. -/
def listRequest (dnspod : Dnspod) (domain : Domain) (typ : String) : Request :=
  ⟨recordListAPI, listValues GetSubDomain dnspod domain typ⟩

/-- The request `create` sends for a domain. -/
def createRequest (dnspod : Dnspod) (domain : Domain) (recordType ipAddr : String) : Request :=
  ⟨recordCreateAPI, createValues GetSubDomain dnspod domain recordType ipAddr⟩

/-- The request `modify` sends for one record of a domain. -/
def modifyRequest (dnspod : Dnspod) (domain : Domain) (recordType ipAddr : String)
    (record : Record) : Request :=
  ⟨recordModifyURL, modifyValues GetSubDomain dnspod domain recordType ipAddr record⟩

end

/-- A write call succeeded: no error and provider status code "1". -/
def Response.accepted (r : Response) : Prop :=
  r.err = none ∧ r.Status.Code = "1"

instance (r : Response) : Decidable r.accepted := by
  unfold Response.accepted
  exact inferInstance

/-- The status a write leaves on the domain. -/
def writeStatus (r : Response) : updateStatusType :=
  if r.accepted then updateStatusType.UpdatedSuccess else updateStatusType.UpdatedFailed

/-- A request is a write: it goes to the create or to the modify endpoint. -/
def Request.isWrite (r : Request) : Prop :=
  r.apiAddr = recordCreateAPI ∨ r.apiAddr = recordModifyURL

instance (r : Request) : Decidable r.isWrite := by
  unfold Request.isWrite
  exact inferInstance

/-- The value list stored under a key of the form values, if any. -/
def Values.field (v : Values) (key : String) : Option (List String) :=
  List.lookup key v

/-- The keys of the form values. -/
def Values.keys (v : Values) : List String :=
  List.map Prod.fst v

/-! ## A concrete setting for the instances of the theorems -/

/-- A sample `GetSubDomain`: the subdomain, or "@" when it is empty. -/
def sampleSub (d : Domain) : String :=
  if d.SubDomain = "" then "@" else d.SubDomain

def sampleDomain : Domain := ⟨"example.com", "sub", updateStatusType.Unset⟩

def otherDomain : Domain := ⟨"example.org", "", updateStatusType.UpdatedSuccess⟩

def thirdDomain : Domain := ⟨"example.net", "www", updateStatusType.UpdatedFailed⟩

def sampleRecord : Record := ⟨"42", "sub", "A", "9.9.9.9", "1"⟩

def matchingRecord : Record := ⟨"43", "sub", "A", "1.2.3.4", "1"⟩

def staleRecord : Record := ⟨"44", "sub", "A", "8.8.8.8", "1"⟩

/-- A provider that lists the given records and accepts every write. -/
def acceptAll (records : List Record) : Provider :=
  fun _ _ => ⟨none, ⟨"1", "ok"⟩, records⟩

/-- A provider whose list answer carries status code "10" and no record, and
that accepts every write. -/
def emptyList : Provider :=
  fun _ req => if req.apiAddr = recordListAPI then ⟨none, ⟨"10", "No records on the list"⟩, []⟩
    else ⟨none, ⟨"1", "ok"⟩, []⟩

/-- A provider that rejects the first `n` requests of a run and accepts every
later one; its list answer is the given records. -/
def acceptAfter (n : Nat) (records : List Record) : Provider :=
  fun hist _ => if hist.length < n then ⟨none, ⟨"10", "denied"⟩, records⟩
    else ⟨none, ⟨"1", "ok"⟩, records⟩

/-- A provider that lists the given records and rejects every write. -/
def rejectWrites (records : List Record) : Provider :=
  fun _ req => if req.apiAddr = recordListAPI then ⟨none, ⟨"1", "ok"⟩, records⟩
    else ⟨none, ⟨"10", "denied"⟩, []⟩

/-- A provider that answers the first `n` requests of a run like `acceptAll []`
and fails on every later one. -/
def failAfter (n : Nat) : Provider :=
  fun hist _ => if hist.length < n then ⟨none, ⟨"1", "ok"⟩, []⟩
    else ⟨some "timeout", ⟨"", ""⟩, []⟩

def sampleDomains (ds : List Domain) : Domains :=
  ⟨fun t => if t = "A" then ("1.2.3.4", ds) else ("", [])⟩

def sampleDnspod (ds : List Domain) : Dnspod :=
  ⟨⟨"id", "secret"⟩, sampleDomains ds, "600"⟩

/-! ## Unfolding lemmas for `create`, `modify` and the loop over the domains -/

section
variable (GetSubDomain : Domain → String) (p : Provider)

theorem writeStatus_success_iff (r : Response) :
    writeStatus r = updateStatusType.UpdatedSuccess ↔ r.accepted := by
  unfold writeStatus
  by_cases h : r.accepted <;> simp [h]

theorem writeStatus_failed (r : Response) (h : ¬ r.accepted) :
    writeStatus r = updateStatusType.UpdatedFailed := by
  unfold writeStatus
  simp [h]

theorem create_eq (dnspod : Dnspod) (result : DnspodRecordListResp) (domain : Domain)
    (recordType ipAddr : String) (log : List Request) :
    create GetSubDomain p dnspod result domain recordType ipAddr log =
      ({ domain with UpdateStatus :=
          writeStatus (p log (createRequest GetSubDomain dnspod domain recordType ipAddr)) },
        log ++ [createRequest GetSubDomain dnspod domain recordType ipAddr]) := by
  unfold create commonRequest writeStatus Response.accepted createRequest
  by_cases h : (p log ⟨recordCreateAPI,
      createValues GetSubDomain dnspod domain recordType ipAddr⟩).err = none
      ∧ (p log ⟨recordCreateAPI,
      createValues GetSubDomain dnspod domain recordType ipAddr⟩).Status.Code = "1"
  · simp only [h, and_self, if_true]
  · simp only [h, if_false]

theorem modifyRecords_nil (dnspod : Dnspod) (recordType ipAddr : String) (domain : Domain)
    (log : List Request) :
    modifyRecords GetSubDomain p dnspod recordType ipAddr [] domain log = (domain, log) := by
  unfold modifyRecords
  rfl

theorem modifyRecords_cons_same (dnspod : Dnspod) (recordType ipAddr : String)
    (record : Record) (rest : List Record) (domain : Domain) (log : List Request)
    (h : record.Value = ipAddr) :
    modifyRecords GetSubDomain p dnspod recordType ipAddr (record :: rest) domain log =
      modifyRecords GetSubDomain p dnspod recordType ipAddr rest domain log := by
  rw [modifyRecords]
  simp only [h, if_true]

theorem modifyRecords_cons_diff (dnspod : Dnspod) (recordType ipAddr : String)
    (record : Record) (rest : List Record) (domain : Domain) (log : List Request)
    (h : record.Value ≠ ipAddr) :
    modifyRecords GetSubDomain p dnspod recordType ipAddr (record :: rest) domain log =
      modifyRecords GetSubDomain p dnspod recordType ipAddr rest
        { domain with UpdateStatus :=
            writeStatus (p log (modifyRequest GetSubDomain dnspod domain recordType ipAddr record)) }
        (log ++ [modifyRequest GetSubDomain dnspod domain recordType ipAddr record]) := by
  rw [modifyRecords]
  simp only [h, if_false]
  unfold commonRequest writeStatus Response.accepted modifyRequest
  by_cases h2 : (p log ⟨recordModifyURL,
      modifyValues GetSubDomain dnspod domain recordType ipAddr record⟩).err = none
      ∧ (p log ⟨recordModifyURL,
      modifyValues GetSubDomain dnspod domain recordType ipAddr record⟩).Status.Code = "1"
  · simp only [h2, and_self, if_true]
  · simp only [h2, if_false]

theorem modifyRecords_all_same (dnspod : Dnspod) (recordType ipAddr : String)
    (recs : List Record) (domain : Domain) (log : List Request)
    (h : ∀ record ∈ recs, record.Value = ipAddr) :
    modifyRecords GetSubDomain p dnspod recordType ipAddr recs domain log = (domain, log) := by
  induction recs with
  | nil => exact modifyRecords_nil GetSubDomain p dnspod recordType ipAddr domain log
  | cons record rest ih =>
    rw [modifyRecords_cons_same GetSubDomain p _ _ _ _ _ _ _ (h record (List.mem_cons_self _ _))]
    exact ih (fun r hr => h r (List.mem_cons_of_mem _ hr))

theorem modifyRecords_log (dnspod : Dnspod) (recordType ipAddr : String)
    (recs : List Record) (domain : Domain) (log : List Request) :
    ∃ later, (modifyRecords GetSubDomain p dnspod recordType ipAddr recs domain log).2
      = log ++ later ∧ ∀ req ∈ later, req.apiAddr = recordModifyURL ∧
        req.values.field "ttl" = some [dnspod.TTL] := by
  induction recs generalizing domain log with
  | nil => exact ⟨[], by simp [modifyRecords_nil]⟩
  | cons record rest ih =>
    by_cases h : record.Value = ipAddr
    · rw [modifyRecords_cons_same GetSubDomain p _ _ _ _ _ _ _ h]
      exact ih domain log
    · rw [modifyRecords_cons_diff GetSubDomain p _ _ _ _ _ _ _ h]
      obtain ⟨later, h1, h2⟩ := ih
        { domain with UpdateStatus :=
            writeStatus (p log (modifyRequest GetSubDomain dnspod domain recordType ipAddr record)) }
        (log ++ [modifyRequest GetSubDomain dnspod domain recordType ipAddr record])
      refine ⟨modifyRequest GetSubDomain dnspod domain recordType ipAddr record :: later, ?_, ?_⟩
      · rw [h1]
        simp
      · intro req hreq
        rcases List.mem_cons.mp hreq with rfl | hmem
        · exact ⟨rfl, by simp [modifyRequest, modifyValues, Values.field, List.lookup]⟩
        · exact h2 req hmem

theorem rangeDomains_nil (dnspod : Dnspod) (recordType ipAddr : String) (log : List Request) :
    rangeDomains GetSubDomain p dnspod recordType ipAddr [] log = ⟨[], log, false⟩ := by
  unfold rangeDomains
  rfl

theorem rangeDomains_cons_err (dnspod : Dnspod) (recordType ipAddr : String)
    (domain : Domain) (rest : List Domain) (log : List Request)
    (h : (p log (listRequest GetSubDomain dnspod domain recordType)).err ≠ none) :
    rangeDomains GetSubDomain p dnspod recordType ipAddr (domain :: rest) log =
      ⟨domain :: rest, log ++ [listRequest GetSubDomain dnspod domain recordType], true⟩ := by
  rw [rangeDomains]
  unfold listRequest at h
  simp only [getRecordList, ne_eq, h, not_false_eq_true, if_true, listRequest]

theorem rangeDomains_cons_create (dnspod : Dnspod) (recordType ipAddr : String)
    (domain : Domain) (rest : List Domain) (log : List Request)
    (h : (p log (listRequest GetSubDomain dnspod domain recordType)).err = none)
    (h0 : (p log (listRequest GetSubDomain dnspod domain recordType)).Records = []) :
    rangeDomains GetSubDomain p dnspod recordType ipAddr (domain :: rest) log =
      ⟨{ domain with UpdateStatus := (writeStatus
            (p (log ++ [listRequest GetSubDomain dnspod domain recordType])
              (createRequest GetSubDomain dnspod domain recordType ipAddr))) } ::
          (rangeDomains GetSubDomain p dnspod recordType ipAddr rest
            (log ++ [listRequest GetSubDomain dnspod domain recordType] ++
              [createRequest GetSubDomain dnspod domain recordType ipAddr])).domains,
        (rangeDomains GetSubDomain p dnspod recordType ipAddr rest
          (log ++ [listRequest GetSubDomain dnspod domain recordType] ++
            [createRequest GetSubDomain dnspod domain recordType ipAddr])).log,
        (rangeDomains GetSubDomain p dnspod recordType ipAddr rest
          (log ++ [listRequest GetSubDomain dnspod domain recordType] ++
            [createRequest GetSubDomain dnspod domain recordType ipAddr])).returned⟩ := by
  rw [rangeDomains]
  unfold listRequest at h h0
  simp only [getRecordList, ne_eq, h, not_true_eq_false, if_false, h0, List.length_nil,
    gt_iff_lt, lt_self_iff_false, create_eq, listRequest]

theorem rangeDomains_cons_modify (dnspod : Dnspod) (recordType ipAddr : String)
    (domain : Domain) (rest : List Domain) (log : List Request)
    (h : (p log (listRequest GetSubDomain dnspod domain recordType)).err = none)
    (h0 : (p log (listRequest GetSubDomain dnspod domain recordType)).Records ≠ []) :
    rangeDomains GetSubDomain p dnspod recordType ipAddr (domain :: rest) log =
      ⟨(modifyRecords GetSubDomain p dnspod recordType ipAddr
            (p log (listRequest GetSubDomain dnspod domain recordType)).Records domain
            (log ++ [listRequest GetSubDomain dnspod domain recordType])).1 ::
          (rangeDomains GetSubDomain p dnspod recordType ipAddr rest
            (modifyRecords GetSubDomain p dnspod recordType ipAddr
              (p log (listRequest GetSubDomain dnspod domain recordType)).Records domain
              (log ++ [listRequest GetSubDomain dnspod domain recordType])).2).domains,
        (rangeDomains GetSubDomain p dnspod recordType ipAddr rest
          (modifyRecords GetSubDomain p dnspod recordType ipAddr
            (p log (listRequest GetSubDomain dnspod domain recordType)).Records domain
            (log ++ [listRequest GetSubDomain dnspod domain recordType])).2).log,
        (rangeDomains GetSubDomain p dnspod recordType ipAddr rest
          (modifyRecords GetSubDomain p dnspod recordType ipAddr
            (p log (listRequest GetSubDomain dnspod domain recordType)).Records domain
            (log ++ [listRequest GetSubDomain dnspod domain recordType])).2).returned⟩ := by
  rw [rangeDomains]
  unfold listRequest at h h0
  have hpos : (p log ⟨recordListAPI, listValues GetSubDomain dnspod domain recordType⟩).Records.length > 0 :=
    List.length_pos.mpr h0
  simp only [getRecordList, ne_eq, h, not_true_eq_false, if_false, hpos, if_true, modify,
    listRequest]

theorem rangeDomains_append (dnspod : Dnspod) (recordType ipAddr : String)
    (pre post : List Domain) (log : List Request) :
    rangeDomains GetSubDomain p dnspod recordType ipAddr (pre ++ post) log =
      if (rangeDomains GetSubDomain p dnspod recordType ipAddr pre log).returned = true then
        ⟨(rangeDomains GetSubDomain p dnspod recordType ipAddr pre log).domains ++ post,
          (rangeDomains GetSubDomain p dnspod recordType ipAddr pre log).log, true⟩
      else
        ⟨(rangeDomains GetSubDomain p dnspod recordType ipAddr pre log).domains ++
            (rangeDomains GetSubDomain p dnspod recordType ipAddr post
              (rangeDomains GetSubDomain p dnspod recordType ipAddr pre log).log).domains,
          (rangeDomains GetSubDomain p dnspod recordType ipAddr post
            (rangeDomains GetSubDomain p dnspod recordType ipAddr pre log).log).log,
          (rangeDomains GetSubDomain p dnspod recordType ipAddr post
            (rangeDomains GetSubDomain p dnspod recordType ipAddr pre log).log).returned⟩ := by
  induction pre generalizing log with
  | nil => simp [rangeDomains_nil]
  | cons d rest ih =>
    by_cases herr : (p log (listRequest GetSubDomain dnspod d recordType)).err = none
    · by_cases h0 : (p log (listRequest GetSubDomain dnspod d recordType)).Records = []
      · simp only [List.cons_append,
          rangeDomains_cons_create GetSubDomain p _ _ _ _ _ _ herr h0, ih]
        split <;> rfl
      · simp only [List.cons_append,
          rangeDomains_cons_modify GetSubDomain p _ _ _ _ _ _ herr h0, ih]
        split <;> rfl
    · simp only [List.cons_append, rangeDomains_cons_err GetSubDomain p _ _ _ _ _ _ herr,
        if_true]

theorem rangeDomains_length (dnspod : Dnspod) (recordType ipAddr : String)
    (domains : List Domain) (log : List Request) :
    (rangeDomains GetSubDomain p dnspod recordType ipAddr domains log).domains.length
      = domains.length := by
  induction domains generalizing log with
  | nil => simp [rangeDomains_nil]
  | cons d rest ih =>
    by_cases herr : (p log (listRequest GetSubDomain dnspod d recordType)).err = none
    · by_cases h0 : (p log (listRequest GetSubDomain dnspod d recordType)).Records = []
      · simp [rangeDomains_cons_create GetSubDomain p _ _ _ _ _ _ herr h0, ih]
      · simp [rangeDomains_cons_modify GetSubDomain p _ _ _ _ _ _ herr h0, ih]
    · simp [rangeDomains_cons_err GetSubDomain p _ _ _ _ _ _ herr]

theorem rangeDomains_log (dnspod : Dnspod) (recordType ipAddr : String)
    (domains : List Domain) (log : List Request) :
    ∃ later, (rangeDomains GetSubDomain p dnspod recordType ipAddr domains log).log
      = log ++ later ∧ ∀ req ∈ later, req.isWrite →
        req.values.field "ttl" = some [dnspod.TTL] := by
  induction domains generalizing log with
  | nil => exact ⟨[], by simp [rangeDomains_nil]⟩
  | cons d rest ih =>
    have hlist : ∀ req, req = listRequest GetSubDomain dnspod d recordType → req.isWrite →
        req.values.field "ttl" = some [dnspod.TTL] := by
      intro req hreq hw
      subst hreq
      exfalso
      revert hw
      simp [Request.isWrite, listRequest, recordListAPI, recordCreateAPI, recordModifyURL]
    by_cases herr : (p log (listRequest GetSubDomain dnspod d recordType)).err = none
    · by_cases h0 : (p log (listRequest GetSubDomain dnspod d recordType)).Records = []
      · rw [rangeDomains_cons_create GetSubDomain p _ _ _ _ _ _ herr h0]
        obtain ⟨later, h1, h2⟩ := ih (log ++ [listRequest GetSubDomain dnspod d recordType] ++
              [createRequest GetSubDomain dnspod d recordType ipAddr])
        refine ⟨listRequest GetSubDomain dnspod d recordType ::
          createRequest GetSubDomain dnspod d recordType ipAddr :: later, ?_, ?_⟩
        · simp only [h1]
          simp
        · intro req hreq hw
          rcases List.mem_cons.mp hreq with rfl | hmem
          · exact hlist _ rfl hw
          · rcases List.mem_cons.mp hmem with rfl | hmem2
            · simp [createRequest, createValues, Values.field, List.lookup]
            · exact h2 req hmem2 hw
      · rw [rangeDomains_cons_modify GetSubDomain p _ _ _ _ _ _ herr h0]
        obtain ⟨mid, hm1, hm2⟩ := modifyRecords_log GetSubDomain p dnspod recordType ipAddr
          (p log (listRequest GetSubDomain dnspod d recordType)).Records d
          (log ++ [listRequest GetSubDomain dnspod d recordType])
        obtain ⟨later, h1, h2⟩ := ih (modifyRecords GetSubDomain p dnspod recordType ipAddr
              (p log (listRequest GetSubDomain dnspod d recordType)).Records d
              (log ++ [listRequest GetSubDomain dnspod d recordType])).2
        refine ⟨listRequest GetSubDomain dnspod d recordType :: (mid ++ later), ?_, ?_⟩
        · rw [h1, hm1]
          simp
        · intro req hreq hw
          rcases List.mem_cons.mp hreq with rfl | hmem
          · exact hlist _ rfl hw
          · rcases List.mem_append.mp hmem with hmid | hlater
            · exact (hm2 req hmid).2
            · exact h2 req hlater hw
    · rw [rangeDomains_cons_err GetSubDomain p _ _ _ _ _ _ herr]
      refine ⟨[listRequest GetSubDomain dnspod d recordType], rfl, ?_⟩
      intro req hreq hw
      exact hlist req (List.mem_singleton.mp hreq) hw

end

/-! ## The requests of the update path -/

section
variable (GetSubDomain : Domain → String) (p : Provider)

theorem filter_differs_nil (ipAddr : String) (recs : List Record)
    (h : recs.filter (fun r => decide (r.Value ≠ ipAddr)) = []) :
    ∀ record ∈ recs, record.Value = ipAddr := by
  intro record hmem
  by_contra hne
  have : record ∈ recs.filter (fun r => decide (r.Value ≠ ipAddr)) :=
    List.mem_filter.mpr ⟨hmem, by simpa using hne⟩
  rw [h] at this
  exact List.not_mem_nil _ this

theorem modifyRecords_requests (dnspod : Dnspod) (recordType ipAddr : String)
    (recs : List Record) (domain : Domain) (log : List Request) :
    ∃ reqs, (modifyRecords GetSubDomain p dnspod recordType ipAddr recs domain log).2
        = log ++ reqs ∧
      List.Forall₂ (fun (req : Request) (record : Record) =>
          req.apiAddr = recordModifyURL ∧
          req.values.field "record_id" = some [record.ID] ∧
          req.values.field "value" = some [ipAddr])
        reqs (recs.filter (fun r => decide (r.Value ≠ ipAddr))) := by
  induction recs generalizing domain log with
  | nil => exact ⟨[], by simp [modifyRecords_nil]⟩
  | cons record rest ih =>
    by_cases h : record.Value = ipAddr
    · rw [modifyRecords_cons_same GetSubDomain p _ _ _ _ _ _ _ h]
      obtain ⟨reqs, h1, h2⟩ := ih domain log
      exact ⟨reqs, h1, by simpa [List.filter_cons, h] using h2⟩
    · rw [modifyRecords_cons_diff GetSubDomain p _ _ _ _ _ _ _ h]
      obtain ⟨reqs, h1, h2⟩ := ih
        { domain with UpdateStatus :=
            writeStatus (p log (modifyRequest GetSubDomain dnspod domain recordType ipAddr record)) }
        (log ++ [modifyRequest GetSubDomain dnspod domain recordType ipAddr record])
      refine ⟨modifyRequest GetSubDomain dnspod domain recordType ipAddr record :: reqs, ?_, ?_⟩
      · rw [h1]
        simp
      · have hf : (record :: rest).filter (fun r => decide (r.Value ≠ ipAddr))
            = record :: rest.filter (fun r => decide (r.Value ≠ ipAddr)) := by
          simp [List.filter_cons, h]
        rw [hf]
        refine List.Forall₂.cons ⟨rfl, ?_, ?_⟩ ?_
        · simp [modifyRequest, modifyValues, Values.field, List.lookup]
        · simp [modifyRequest, modifyValues, Values.field, List.lookup]
        · simpa [modifyRequest, modifyValues] using h2

theorem modifyRecords_single (dnspod : Dnspod) (recordType ipAddr : String)
    (recs : List Record) (domain : Domain) (log : List Request) (record : Record)
    (h : recs.filter (fun r => decide (r.Value ≠ ipAddr)) = [record]) :
    modifyRecords GetSubDomain p dnspod recordType ipAddr recs domain log =
      ({ domain with UpdateStatus :=
          writeStatus (p log (modifyRequest GetSubDomain dnspod domain recordType ipAddr record)) },
        log ++ [modifyRequest GetSubDomain dnspod domain recordType ipAddr record]) := by
  induction recs with
  | nil => simp at h
  | cons r rest ih =>
    by_cases hr : r.Value = ipAddr
    · rw [modifyRecords_cons_same GetSubDomain p _ _ _ _ _ _ _ hr]
      apply ih
      simpa [List.filter_cons, hr] using h
    · rw [modifyRecords_cons_diff GetSubDomain p _ _ _ _ _ _ _ hr]
      have hf : r :: rest.filter (fun r => decide (r.Value ≠ ipAddr)) = [record] := by
        simpa [List.filter_cons, hr] using h
      have hrec : r = record := (List.cons.inj hf).1
      have hrest : rest.filter (fun r => decide (r.Value ≠ ipAddr)) = [] := (List.cons.inj hf).2
      subst hrec
      exact modifyRecords_all_same GetSubDomain p dnspod recordType ipAddr rest _ _
        (filter_differs_nil ipAddr rest hrest)

end

/-! ## A pass in which every record already matches -/

section
variable (GetSubDomain : Domain → String) (p : Provider)

theorem rangeDomains_all_match (dnspod : Dnspod) (recordType ipAddr : String)
    (domains : List Domain) (log : List Request)
    (hp : ∀ hist req, req.apiAddr = recordListAPI →
        (p hist req).err = none ∧ (p hist req).Records ≠ [] ∧
        ∀ record ∈ (p hist req).Records, record.Value = ipAddr) :
    rangeDomains GetSubDomain p dnspod recordType ipAddr domains log =
      ⟨domains, log ++ domains.map (fun x => listRequest GetSubDomain dnspod x recordType),
        false⟩ := by
  induction domains generalizing log with
  | nil => simp [rangeDomains_nil]
  | cons d rest ih =>
    obtain ⟨hok, hne, hall⟩ := hp log (listRequest GetSubDomain dnspod d recordType) rfl
    rw [rangeDomains_cons_modify GetSubDomain p _ _ _ _ _ _ hok hne,
      modifyRecords_all_same GetSubDomain p _ _ _ _ _ _ hall, ih]
    simp

end

/-! ## The last write of the update path -/

section
variable (GetSubDomain : Domain → String) (p : Provider)

theorem modifyRecords_last (dnspod : Dnspod) (recordType ipAddr : String)
    (recs : List Record) (domain : Domain) (log : List Request)
    (init : List Record) (last : Record)
    (h : recs.filter (fun r => decide (r.Value ≠ ipAddr)) = init ++ [last]) :
    ∃ earlier req,
      (modifyRecords GetSubDomain p dnspod recordType ipAddr recs domain log).2
        = log ++ earlier ++ [req] ∧
      earlier.length = init.length ∧
      req.apiAddr = recordModifyURL ∧
      req.values.field "record_id" = some [last.ID] ∧
      (modifyRecords GetSubDomain p dnspod recordType ipAddr recs domain log).1.UpdateStatus
        = writeStatus (p (log ++ earlier) req) := by
  induction recs generalizing domain log init with
  | nil =>
    exfalso
    simp at h
  | cons r rest ih =>
    by_cases hr : r.Value = ipAddr
    · rw [modifyRecords_cons_same GetSubDomain p _ _ _ _ _ _ _ hr]
      apply ih
      simpa [List.filter_cons, hr] using h
    · rw [modifyRecords_cons_diff GetSubDomain p _ _ _ _ _ _ _ hr]
      have hf : r :: rest.filter (fun r => decide (r.Value ≠ ipAddr)) = init ++ [last] := by
        simpa [List.filter_cons, hr] using h
      cases init with
      | nil =>
        have hrec : r = last := (List.cons.inj hf).1
        have hrest : rest.filter (fun r => decide (r.Value ≠ ipAddr)) = [] :=
          (List.cons.inj hf).2
        subst hrec
        rw [modifyRecords_all_same GetSubDomain p dnspod recordType ipAddr rest _ _
          (filter_differs_nil ipAddr rest hrest)]
        refine ⟨[], modifyRequest GetSubDomain dnspod domain recordType ipAddr r, by simp,
          rfl, rfl, ?_, by simp⟩
        simp [modifyRequest, modifyValues, Values.field, List.lookup]
      | cons i init2 =>
        have hrest : rest.filter (fun r => decide (r.Value ≠ ipAddr)) = init2 ++ [last] :=
          (List.cons.inj hf).2
        obtain ⟨earlier, req, h1, h2, h3, h4, h5⟩ := ih
          { domain with UpdateStatus :=
              writeStatus (p log (modifyRequest GetSubDomain dnspod domain recordType ipAddr r)) }
          (log ++ [modifyRequest GetSubDomain dnspod domain recordType ipAddr r]) init2 hrest
        refine ⟨modifyRequest GetSubDomain dnspod domain recordType ipAddr r :: earlier, req,
          ?_, by simp [h2], h3, h4, ?_⟩
        · rw [h1]
          simp
        · rw [h5]
          simp

end

/-! ## Which answers of the provider a run depends on -/

section
variable (GetSubDomain : Domain → String) (p : Provider)

end

/-! ## Form values and the TTL of the writes -/

theorem Values.field_nil (key : String) : Values.field [] key = none := rfl

theorem Values.field_cons (key a : String) (b : List String) (l : Values) :
    Values.field ((a, b) :: l) key = if key = a then some b else Values.field l key := by
  unfold Values.field
  by_cases h : key = a
  · subst h
    simp [List.lookup]
  · have hb : (key == a) = false := by simpa using h
    simp [List.lookup, hb, h]

section
variable (GetSubDomain : Domain → String) (p : Provider)

theorem addUpdateDomainRecords_log (dnspod : Dnspod) (recordType : String)
    (log : List Request) :
    ∃ later, (addUpdateDomainRecords GetSubDomain p dnspod recordType log).2 = log ++ later ∧
      ∀ req ∈ later, req.isWrite → req.values.field "ttl" = some [dnspod.TTL] := by
  unfold addUpdateDomainRecords
  by_cases hip : (dnspod.Domains.GetNewIpResult recordType).1 = ""
  · simp only [hip, if_true]
    exact ⟨[], by simp⟩
  · simp only [hip, if_false]
    exact rangeDomains_log GetSubDomain p dnspod recordType _ _ log

theorem AddUpdateDomainRecords_log (dnspod : Dnspod) (log : List Request) :
    ∃ issued, (AddUpdateDomainRecords GetSubDomain p dnspod log).2 = log ++ issued ∧
      ∀ req ∈ issued, req.isWrite → req.values.field "ttl" = some [dnspod.TTL] := by
  obtain ⟨l1, h1, t1⟩ := addUpdateDomainRecords_log GetSubDomain p dnspod "A" log
  obtain ⟨l2, h2, t2⟩ := addUpdateDomainRecords_log GetSubDomain p
    ⟨dnspod.DNSConfig, dnspod.Domains.assign "A"
      (addUpdateDomainRecords GetSubDomain p dnspod "A" log).1, dnspod.TTL⟩
    "AAAA" (addUpdateDomainRecords GetSubDomain p dnspod "A" log).2
  refine ⟨l1 ++ l2, ?_, ?_⟩
  · unfold AddUpdateDomainRecords
    show (addUpdateDomainRecords GetSubDomain p
      ⟨dnspod.DNSConfig, dnspod.Domains.assign "A"
        (addUpdateDomainRecords GetSubDomain p dnspod "A" log).1, dnspod.TTL⟩
      "AAAA" (addUpdateDomainRecords GetSubDomain p dnspod "A" log).2).2 = log ++ (l1 ++ l2)
    rw [h2, h1, List.append_assoc]
  · intro req hreq hw
    rcases List.mem_append.mp hreq with hm | hm
    · exact t1 req hm hw
    · exact t2 req hm hw

end

/-! ## The claims -/

/-- C1: in a pass with a non-empty desired IP, when the loop reaches a domain
(no earlier list call failed) and the list call for it returns no error and
zero records, whatever status code the list response carries, the requests
sent for that domain are its list request followed by exactly one write, the
create request; the loop then goes on with the later domains, and the domain's
status is UpdatedSuccess iff the create call returned no error and code "1",
and UpdatedFailed otherwise. -/
theorem create_once_when_no_record (GetSubDomain : Domain → String) (p : Provider)
    (dnspod : Dnspod) (recordType ipAddr : String) (pre post : List Domain) (d : Domain)
    (log : List Request) (before after : LoopResult)
    (hres : dnspod.Domains.GetNewIpResult recordType = (ipAddr, pre ++ d :: post))
    (hip : ipAddr ≠ "")
    (hbefore : rangeDomains GetSubDomain p dnspod recordType ipAddr pre log = before)
    (hreached : before.returned = false)
    (hok : (p before.log (listRequest GetSubDomain dnspod d recordType)).err = none)
    (hempty : (p before.log (listRequest GetSubDomain dnspod d recordType)).Records = [])
    (hafter : rangeDomains GetSubDomain p dnspod recordType ipAddr post
      (before.log ++ [listRequest GetSubDomain dnspod d recordType] ++
        [createRequest GetSubDomain dnspod d recordType ipAddr]) = after) :
    ∃ later st,
      addUpdateDomainRecords GetSubDomain p dnspod recordType log =
        (before.domains ++ { d with UpdateStatus := st } :: after.domains,
          before.log ++ [listRequest GetSubDomain dnspod d recordType] ++
            [createRequest GetSubDomain dnspod d recordType ipAddr] ++ later) ∧
      after.log = before.log ++ [listRequest GetSubDomain dnspod d recordType] ++
        [createRequest GetSubDomain dnspod d recordType ipAddr] ++ later ∧
      before.domains.length = pre.length ∧
      (createRequest GetSubDomain dnspod d recordType ipAddr).apiAddr = recordCreateAPI ∧
      (st = updateStatusType.UpdatedSuccess ↔
        (p (before.log ++ [listRequest GetSubDomain dnspod d recordType])
          (createRequest GetSubDomain dnspod d recordType ipAddr)).accepted) ∧
      (¬ (p (before.log ++ [listRequest GetSubDomain dnspod d recordType])
          (createRequest GetSubDomain dnspod d recordType ipAddr)).accepted →
        st = updateStatusType.UpdatedFailed) := by
  subst hbefore hafter
  obtain ⟨later, hlater, -⟩ := rangeDomains_log GetSubDomain p dnspod recordType ipAddr post
    ((rangeDomains GetSubDomain p dnspod recordType ipAddr pre log).log ++
      [listRequest GetSubDomain dnspod d recordType] ++
      [createRequest GetSubDomain dnspod d recordType ipAddr])
  refine ⟨later, writeStatus
    (p ((rangeDomains GetSubDomain p dnspod recordType ipAddr pre log).log ++
        [listRequest GetSubDomain dnspod d recordType])
      (createRequest GetSubDomain dnspod d recordType ipAddr)), ?_, hlater,
    rangeDomains_length GetSubDomain p dnspod recordType ipAddr pre log, rfl,
    writeStatus_success_iff _, writeStatus_failed _⟩
  unfold addUpdateDomainRecords
  simp only [hres, hip, if_false]
  rw [rangeDomains_append, hreached]
  simp only [Bool.false_eq_true, if_false]
  rw [rangeDomains_cons_create GetSubDomain p _ _ _ _ _ _ hok hempty, hlater]

theorem create_once_when_no_record_witness :
    ∃ later st,
      addUpdateDomainRecords sampleSub emptyList (sampleDnspod [sampleDomain]) "A" [] =
        ([{ sampleDomain with UpdateStatus := st }],
          [listRequest sampleSub (sampleDnspod [sampleDomain]) sampleDomain "A",
            createRequest sampleSub (sampleDnspod [sampleDomain]) sampleDomain "A" "1.2.3.4"]
            ++ later) ∧
      st = updateStatusType.UpdatedSuccess := by
  obtain ⟨later, st, h1, _, _, _, h5, _⟩ :=
    create_once_when_no_record sampleSub emptyList (sampleDnspod [sampleDomain])
      "A" "1.2.3.4" [] [] sampleDomain [] ⟨[], [], false⟩
      ⟨[], [listRequest sampleSub (sampleDnspod [sampleDomain]) sampleDomain "A",
        createRequest sampleSub (sampleDnspod [sampleDomain]) sampleDomain "A" "1.2.3.4"], false⟩
      rfl (by decide) rfl rfl rfl rfl rfl
  exact ⟨later, st, h1, h5.mpr (by decide)⟩

/-- C2: in a pass with a non-empty desired IP, when the loop reaches domain i
(no earlier list call failed) and the list call for domain i returns an error,
the pass ends there: the failed list request is the last request of the pass
(no create or update for domain i or a later domain, no further list request),
and domain i and every later domain are as they were before the pass. -/
theorem list_error_ends_pass (GetSubDomain : Domain → String) (p : Provider)
    (dnspod : Dnspod) (recordType ipAddr : String) (pre post : List Domain) (d : Domain)
    (log : List Request) (before : LoopResult)
    (hres : dnspod.Domains.GetNewIpResult recordType = (ipAddr, pre ++ d :: post))
    (hip : ipAddr ≠ "")
    (hbefore : rangeDomains GetSubDomain p dnspod recordType ipAddr pre log = before)
    (hreached : before.returned = false)
    (herr : (p before.log (listRequest GetSubDomain dnspod d recordType)).err ≠ none) :
    addUpdateDomainRecords GetSubDomain p dnspod recordType log =
        (before.domains ++ d :: post,
          before.log ++ [listRequest GetSubDomain dnspod d recordType]) ∧
      before.domains.length = pre.length ∧
      (addUpdateDomainRecords GetSubDomain p dnspod recordType log).1.drop pre.length
        = d :: post := by
  subst hbefore
  have hlen := rangeDomains_length GetSubDomain p dnspod recordType ipAddr pre log
  have hrun : addUpdateDomainRecords GetSubDomain p dnspod recordType log =
      ((rangeDomains GetSubDomain p dnspod recordType ipAddr pre log).domains ++ d :: post,
        (rangeDomains GetSubDomain p dnspod recordType ipAddr pre log).log ++
          [listRequest GetSubDomain dnspod d recordType]) := by
    unfold addUpdateDomainRecords
    simp only [hres, hip, if_false]
    rw [rangeDomains_append, hreached]
    simp only [Bool.false_eq_true, if_false]
    rw [rangeDomains_cons_err GetSubDomain p _ _ _ _ _ _ herr]
  refine ⟨hrun, hlen, ?_⟩
  rw [hrun, ← hlen]
  simp

theorem list_error_ends_pass_witness :
    addUpdateDomainRecords sampleSub (failAfter 2)
        (sampleDnspod [sampleDomain, otherDomain, thirdDomain]) "A" [] =
      ([{ sampleDomain with UpdateStatus := updateStatusType.UpdatedSuccess },
          otherDomain, thirdDomain],
        [listRequest sampleSub (sampleDnspod []) sampleDomain "A",
          createRequest sampleSub (sampleDnspod []) sampleDomain "A" "1.2.3.4",
          listRequest sampleSub (sampleDnspod []) otherDomain "A"]) :=
  (list_error_ends_pass sampleSub (failAfter 2)
    (sampleDnspod [sampleDomain, otherDomain, thirdDomain])
    "A" "1.2.3.4" [sampleDomain] [thirdDomain] otherDomain []
    ⟨[{ sampleDomain with UpdateStatus := updateStatusType.UpdatedSuccess }],
      [listRequest sampleSub (sampleDnspod []) sampleDomain "A",
        createRequest sampleSub (sampleDnspod []) sampleDomain "A" "1.2.3.4"], false⟩
    rfl (by decide) rfl rfl (by decide)).1

/-- C3: for every record list and desired IP, the requests `modify` sends are,
in list order, one per record whose Value differs from the desired IP, each to
the Record.Modify endpoint with record_id that record's ID and value the
desired IP, and none for a record whose Value equals the desired IP; when
exactly one record differs, the one request is that record's and the
domain's status becomes UpdatedSuccess iff that call returned no error and
code "1", and UpdatedFailed otherwise. -/
theorem modify_writes_differing_records (GetSubDomain : Domain → String) (p : Provider)
    (dnspod : Dnspod) (result : DnspodRecordListResp) (domain : Domain)
    (recordType ipAddr : String) (log : List Request) :
    ∃ reqs,
      (modify GetSubDomain p dnspod result domain recordType ipAddr log).2 = log ++ reqs ∧
      List.Forall₂ (fun (req : Request) (record : Record) =>
          req.apiAddr = recordModifyURL ∧
          req.values.field "record_id" = some [record.ID] ∧
          req.values.field "value" = some [ipAddr])
        reqs (result.Records.filter (fun r => decide (r.Value ≠ ipAddr))) ∧
      ∀ record, result.Records.filter (fun r => decide (r.Value ≠ ipAddr)) = [record] →
        reqs = [modifyRequest GetSubDomain dnspod domain recordType ipAddr record] ∧
        ((modify GetSubDomain p dnspod result domain recordType ipAddr log).1.UpdateStatus
            = updateStatusType.UpdatedSuccess ↔
          (p log (modifyRequest GetSubDomain dnspod domain recordType ipAddr record)).accepted) ∧
        (¬ (p log (modifyRequest GetSubDomain dnspod domain recordType ipAddr record)).accepted →
          (modify GetSubDomain p dnspod result domain recordType ipAddr log).1.UpdateStatus
            = updateStatusType.UpdatedFailed) := by
  obtain ⟨reqs, h1, h2⟩ := modifyRecords_requests GetSubDomain p dnspod recordType ipAddr
    result.Records domain log
  refine ⟨reqs, h1, h2, ?_⟩
  intro record hrec
  have hs := modifyRecords_single GetSubDomain p dnspod recordType ipAddr result.Records
    domain log record hrec
  unfold modify
  rw [hs] at h1
  rw [hs]
  exact ⟨(List.append_cancel_left h1).symm, writeStatus_success_iff _, writeStatus_failed _⟩

theorem modify_writes_differing_records_witness :
    (modify sampleSub (rejectWrites [matchingRecord, sampleRecord]) (sampleDnspod [])
        ⟨⟨"1", "ok"⟩, [matchingRecord, sampleRecord]⟩ sampleDomain "A" "1.2.3.4" []).1.UpdateStatus
      = updateStatusType.UpdatedFailed := by
  obtain ⟨_, _, _, h⟩ := modify_writes_differing_records sampleSub
    (rejectWrites [matchingRecord, sampleRecord]) (sampleDnspod [])
    ⟨⟨"1", "ok"⟩, [matchingRecord, sampleRecord]⟩ sampleDomain "A" "1.2.3.4" []
  exact (h sampleRecord (by decide)).2.2 (by decide)

/-- C4: in a pass with a non-empty desired IP, when the loop reaches a domain
whose list call returns no error and a non-empty record list in which every
record's Value equals the desired IP, the only request sent for that domain is
its list request (zero writes) and the domain is left as it was before the
pass, the loop going on with the later domains.  Consequently, when every list
call of a pass is answered that way (a second run against already-matching
remote records with an unchanged desired IP), the pass sends list requests
only and changes no domain. -/
theorem no_write_when_records_match (GetSubDomain : Domain → String) (p : Provider)
    (dnspod : Dnspod) (recordType ipAddr : String) (pre post : List Domain) (d : Domain)
    (log : List Request) (before after : LoopResult)
    (hres : dnspod.Domains.GetNewIpResult recordType = (ipAddr, pre ++ d :: post))
    (hip : ipAddr ≠ "") :
    (rangeDomains GetSubDomain p dnspod recordType ipAddr pre log = before →
      before.returned = false →
      (p before.log (listRequest GetSubDomain dnspod d recordType)).err = none →
      (p before.log (listRequest GetSubDomain dnspod d recordType)).Records ≠ [] →
      (∀ record ∈ (p before.log (listRequest GetSubDomain dnspod d recordType)).Records,
        record.Value = ipAddr) →
      rangeDomains GetSubDomain p dnspod recordType ipAddr post
        (before.log ++ [listRequest GetSubDomain dnspod d recordType]) = after →
      ∃ later,
        addUpdateDomainRecords GetSubDomain p dnspod recordType log =
          (before.domains ++ d :: after.domains,
            before.log ++ [listRequest GetSubDomain dnspod d recordType] ++ later) ∧
        after.log = before.log ++ [listRequest GetSubDomain dnspod d recordType] ++ later ∧
        before.domains.length = pre.length) ∧
    ((∀ hist req, req.apiAddr = recordListAPI →
        (p hist req).err = none ∧ (p hist req).Records ≠ [] ∧
        ∀ record ∈ (p hist req).Records, record.Value = ipAddr) →
      addUpdateDomainRecords GetSubDomain p dnspod recordType log =
        (pre ++ d :: post,
          log ++ (pre ++ d :: post).map
            (fun x => listRequest GetSubDomain dnspod x recordType))) := by
  constructor
  · intro hbefore hreached hok hne hall hafter
    subst hbefore hafter
    obtain ⟨later, hlater, -⟩ := rangeDomains_log GetSubDomain p dnspod recordType ipAddr post
      ((rangeDomains GetSubDomain p dnspod recordType ipAddr pre log).log ++
        [listRequest GetSubDomain dnspod d recordType])
    refine ⟨later, ?_, hlater,
      rangeDomains_length GetSubDomain p dnspod recordType ipAddr pre log⟩
    unfold addUpdateDomainRecords
    simp only [hres, hip, if_false]
    rw [rangeDomains_append, hreached]
    simp only [Bool.false_eq_true, if_false]
    rw [rangeDomains_cons_modify GetSubDomain p _ _ _ _ _ _ hok hne,
      modifyRecords_all_same GetSubDomain p _ _ _ _ _ _ hall, hlater]
  · intro hp
    unfold addUpdateDomainRecords
    simp only [hres, hip, if_false]
    rw [rangeDomains_all_match GetSubDomain p dnspod recordType ipAddr (pre ++ d :: post) log hp]

theorem no_write_when_records_match_witness :
    (∃ later, addUpdateDomainRecords sampleSub (rejectWrites [matchingRecord])
        (sampleDnspod [sampleDomain, otherDomain]) "A" [] =
      ([sampleDomain, otherDomain],
        [listRequest sampleSub (sampleDnspod []) sampleDomain "A"] ++ later)) ∧
    addUpdateDomainRecords sampleSub (rejectWrites [matchingRecord])
        (sampleDnspod [sampleDomain, otherDomain]) "A" [] =
      ([sampleDomain, otherDomain],
        [listRequest sampleSub (sampleDnspod []) sampleDomain "A",
          listRequest sampleSub (sampleDnspod []) otherDomain "A"]) := by
  have h := no_write_when_records_match sampleSub (rejectWrites [matchingRecord])
    (sampleDnspod [sampleDomain, otherDomain]) "A" "1.2.3.4" [] [otherDomain] sampleDomain []
    ⟨[], [], false⟩
    ⟨[otherDomain], [listRequest sampleSub (sampleDnspod []) sampleDomain "A",
      listRequest sampleSub (sampleDnspod []) otherDomain "A"], false⟩
    rfl (by decide)
  constructor
  · obtain ⟨later, h1, _, _⟩ := h.1 rfl rfl rfl (by decide) (by decide) rfl
    exact ⟨later, h1⟩
  · exact h.2 (by
      intro hist req hreq
      simp [rejectWrites, hreq, matchingRecord])

/-- C5: when `GetNewIpResult` returns an empty desired IP for a record type,
the pass for that record type sends no request at all (the log of requests is
unchanged: no list, create or update request) and leaves every domain,
its UpdateStatus included, as it was. -/
theorem empty_ip_is_noop (GetSubDomain : Domain → String) (p : Provider)
    (dnspod : Dnspod) (recordType : String) (log : List Request)
    (hip : (dnspod.Domains.GetNewIpResult recordType).1 = "") :
    addUpdateDomainRecords GetSubDomain p dnspod recordType log =
      ((dnspod.Domains.GetNewIpResult recordType).2, log) := by
  unfold addUpdateDomainRecords
  simp only [hip, if_true]

theorem empty_ip_is_noop_witness :
    addUpdateDomainRecords sampleSub (acceptAll [])
        ⟨⟨"id", "secret"⟩, ⟨fun _ => ("", [sampleDomain, otherDomain])⟩, "600"⟩ "AAAA" [] =
      ([sampleDomain, otherDomain], []) :=
  empty_ip_is_noop sampleSub (acceptAll [])
    ⟨⟨"id", "secret"⟩, ⟨fun _ => ("", [sampleDomain, otherDomain])⟩, "600"⟩ "AAAA" [] rfl

/-- C6: for every record list, when at least one record's Value differs from
the desired IP the last request `modify` sends is the write for the last
differing record, and the domain's status afterwards is decided by the answer
to that request alone: UpdatedSuccess iff it returned no error and code "1",
UpdatedFailed otherwise, whatever the answers to the earlier writes were; when
no record differs, no write is attempted and the domain and its status are
unchanged. -/
theorem modify_status_is_last_write (GetSubDomain : Domain → String) (p : Provider)
    (dnspod : Dnspod) (result : DnspodRecordListResp) (domain : Domain)
    (recordType ipAddr : String) (log : List Request) :
    (∀ init last, result.Records.filter (fun r => decide (r.Value ≠ ipAddr)) = init ++ [last] →
      ∃ earlier req,
        (modify GetSubDomain p dnspod result domain recordType ipAddr log).2
          = log ++ earlier ++ [req] ∧
        earlier.length = init.length ∧
        req.apiAddr = recordModifyURL ∧
        req.values.field "record_id" = some [last.ID] ∧
        ((modify GetSubDomain p dnspod result domain recordType ipAddr log).1.UpdateStatus
            = updateStatusType.UpdatedSuccess ↔ (p (log ++ earlier) req).accepted) ∧
        (¬ (p (log ++ earlier) req).accepted →
          (modify GetSubDomain p dnspod result domain recordType ipAddr log).1.UpdateStatus
            = updateStatusType.UpdatedFailed)) ∧
    (result.Records.filter (fun r => decide (r.Value ≠ ipAddr)) = [] →
      modify GetSubDomain p dnspod result domain recordType ipAddr log = (domain, log)) := by
  constructor
  · intro init last h
    obtain ⟨earlier, req, h1, h2, h3, h4, h5⟩ := modifyRecords_last GetSubDomain p dnspod
      recordType ipAddr result.Records domain log init last h
    refine ⟨earlier, req, h1, h2, h3, h4, ?_, ?_⟩
    · unfold modify
      rw [h5]
      exact writeStatus_success_iff _
    · intro hna
      unfold modify
      rw [h5]
      exact writeStatus_failed _ hna
  · intro h
    exact modifyRecords_all_same GetSubDomain p dnspod recordType ipAddr result.Records
      domain log (filter_differs_nil ipAddr result.Records h)

theorem modify_status_is_last_write_witness :
    (modify sampleSub (acceptAfter 1 []) (sampleDnspod [])
        ⟨⟨"1", "ok"⟩, [sampleRecord, matchingRecord, staleRecord]⟩
        sampleDomain "A" "1.2.3.4" []).1.UpdateStatus
      = updateStatusType.UpdatedSuccess := by
  obtain ⟨earlier, req, _, h2, _, _, h5, _⟩ :=
    (modify_status_is_last_write sampleSub (acceptAfter 1 []) (sampleDnspod [])
      ⟨⟨"1", "ok"⟩, [sampleRecord, matchingRecord, staleRecord]⟩
      sampleDomain "A" "1.2.3.4" []).1 [sampleRecord] staleRecord (by decide)
  apply h5.mpr
  simp [acceptAfter, Response.accepted, h2]

/-- C8 (as stated, refuted): the record_line field of the Create request is
not "default". -/
theorem create_record_line_not_default :
    (createValues sampleSub (sampleDnspod []) sampleDomain "A" "1.2.3.4").field "record_line"
      ≠ some ["default"] := by
  decide

/-- C8 (amended): for every domain, record type, desired IP and configuration,
the form values of the Create request have eight distinct keys and are
exactly: login_token equal to the identity, a comma, then the secret; domain;
sub_domain; record_type equal to the given record type; record_line equal to
"默认"; value equal to the desired IP; ttl equal to the configured TTL; format
equal to "json"; every other key is absent. -/
theorem create_form_values (GetSubDomain : Domain → String) (dnspod : Dnspod)
    (domain : Domain) (recordType ipAddr : String) :
    (createValues GetSubDomain dnspod domain recordType ipAddr).keys.Nodup ∧
    (createValues GetSubDomain dnspod domain recordType ipAddr).keys.length = 8 ∧
    ∀ key : String,
      (createValues GetSubDomain dnspod domain recordType ipAddr).field key =
        if key = "login_token" then
          some [dnspod.DNSConfig.ID ++ "," ++ dnspod.DNSConfig.Secret]
        else if key = "domain" then some [domain.DomainName]
        else if key = "sub_domain" then some [GetSubDomain domain]
        else if key = "record_type" then some [recordType]
        else if key = "record_line" then some ["默认"]
        else if key = "value" then some [ipAddr]
        else if key = "ttl" then some [dnspod.TTL]
        else if key = "format" then some ["json"]
        else none := by
  refine ⟨?_, by simp [createValues, Values.keys], ?_⟩
  · simp only [createValues, Values.keys, List.map]
    decide
  · intro key
    simp only [createValues, Values.field_cons, Values.field_nil]

/-- C9: for every domain, record type, desired IP, configuration and existing
record, the form values `modify` builds agree with the form values `create`
builds for the same arguments on every key other than record_id, and have
exactly one more field, record_id, absent from the Create form and set to the
existing record's ID. -/
theorem modify_form_is_create_plus_record_id (GetSubDomain : Domain → String)
    (dnspod : Dnspod) (domain : Domain) (recordType ipAddr : String) (record : Record) :
    (∀ key : String,
      (modifyValues GetSubDomain dnspod domain recordType ipAddr record).field key =
        if key = "record_id" then some [record.ID]
        else (createValues GetSubDomain dnspod domain recordType ipAddr).field key) ∧
    (createValues GetSubDomain dnspod domain recordType ipAddr).field "record_id" = none ∧
    (modifyValues GetSubDomain dnspod domain recordType ipAddr record).keys.Nodup ∧
    (modifyValues GetSubDomain dnspod domain recordType ipAddr record).keys.Perm
      ("record_id" :: (createValues GetSubDomain dnspod domain recordType ipAddr).keys) := by
  refine ⟨?_, ?_, ?_, ?_⟩
  · intro key
    simp only [modifyValues, createValues, Values.field_cons, Values.field_nil]
    by_cases h : key = "record_id"
    · subst h
      simp
    · simp [h]
  · simp [createValues, Values.field_cons, Values.field_nil]
  · simp only [modifyValues, Values.keys, List.map]
    decide
  · simp only [modifyValues, createValues, Values.keys, List.map]
    decide

/-- C10: after `Init` with any configuration the TTL of the Dnspod value is
"600" when the configured TTL is the empty string and the configured TTL
otherwise, and every create and update request sent by a following
`AddUpdateDomainRecords` run carries that TTL as its ttl field. -/
theorem init_ttl_in_every_write (GetSubDomain : Domain → String) (p : Provider)
    (GetNewIp : Config → Domains → Domains) (dnspod : Dnspod) (conf : Config)
    (log : List Request) :
    (conf.TTL = "" → (Init GetNewIp dnspod conf).TTL = "600") ∧
    (conf.TTL ≠ "" → (Init GetNewIp dnspod conf).TTL = conf.TTL) ∧
    ∃ issued,
      (AddUpdateDomainRecords GetSubDomain p (Init GetNewIp dnspod conf) log).2
        = log ++ issued ∧
      ∀ req ∈ issued, req.isWrite →
        req.values.field "ttl" = some [(Init GetNewIp dnspod conf).TTL] := by
  refine ⟨?_, ?_, ?_⟩
  · intro h
    simp [Init, h]
  · intro h
    simp [Init, h]
  · exact AddUpdateDomainRecords_log GetSubDomain p (Init GetNewIp dnspod conf) log

theorem init_ttl_in_every_write_witness :
    (Init (fun _ ds => ds) (sampleDnspod [sampleDomain]) ⟨⟨"id", "secret"⟩, ""⟩).TTL = "600" ∧
    ∃ issued,
      (AddUpdateDomainRecords sampleSub emptyList
        (Init (fun _ ds => ds) (sampleDnspod [sampleDomain]) ⟨⟨"id", "secret"⟩, ""⟩) []).2
        = [] ++ issued ∧
      ∀ req ∈ issued, req.isWrite → req.values.field "ttl" = some ["600"] :=
  ⟨(init_ttl_in_every_write sampleSub emptyList (fun _ ds => ds) (sampleDnspod [sampleDomain])
      ⟨⟨"id", "secret"⟩, ""⟩ []).1 rfl,
    (init_ttl_in_every_write sampleSub emptyList (fun _ ds => ds) (sampleDnspod [sampleDomain])
      ⟨⟨"id", "secret"⟩, ""⟩ []).2.2⟩

end dns
